import Mathlib

/-
Verification of the FaceAge batch image processor (faceage.py).

The program scans a directory for image files, posts each one to a face
detection API, flattens the returned face record into a single-level
mapping, and writes all rows as CSV.  This development shallowly embeds
the data model and the control flow of the script: Python dicts become
insertion-ordered association lists, the per-image loop becomes a
recursive function producing an event trace, exceptions become Option
and Except values, and the file system effects of the final write are
recorded as explicit flags.
-/

namespace FaceAge

/-- JSON-like values appearing in API responses.  Numeric scores are
modelled as integers because the transforms under verification never
inspect numeric values, only move them around. -/
inductive JValue where
  | str (s : String)
  | num (n : Int)
  | obj (fields : List (String × JValue))

/-- A Python dict with string keys, modelled as an insertion-ordered
association list; Python guarantees the keys are distinct. -/
abbrev Dict := List (String × JValue)

/-- Lookup, modelling Python subscript access; none models a KeyError. -/
def dget : Dict → String → Option JValue
  | [], _ => none
  | (k0, v0) :: rest, k => if k0 = k then some v0 else dget rest k

/-- Item assignment d[k] = v: an existing key keeps its position and gets
the new value, a new key is appended at the end, as in Python dicts. -/
def dset : Dict → String → JValue → Dict
  | [], k, v => [(k, v)]
  | (k0, v0) :: rest, k, v =>
      if k0 = k then (k, v) :: rest else (k0, v0) :: dset rest k v

/-- Removal of the first entry with the given key, keeping the rest. -/
def eraseKey : Dict → String → Dict
  | [], _ => []
  | (k0, v0) :: rest, k => if k0 = k then rest else (k0, v0) :: eraseKey rest k

/-- Python d.pop(k) with no default: returns the removed value and the
remaining dict, or none (a KeyError) when the key is absent. -/
def dpop : Dict → String → Option (JValue × Dict)
  | [], _ => none
  | (k0, v0) :: rest, k =>
      if k0 = k then some (v0, rest)
      else
        match dpop rest k with
        | none => none
        | some (v, rest2) => some (v, (k0, v0) :: rest2)

/-- Python d.update(e): entries of e are written into d in order. -/
def dupdate (d : Dict) (e : Dict) : Dict :=
  e.foldl (fun acc kv => dset acc kv.1 kv.2) d

/-- The keys of a dict in iteration order. -/
def keysOf (d : Dict) : List String := d.map Prod.fst

/-- The Python dict invariant: keys are pairwise distinct. -/
abbrev nodupKeys (d : Dict) : Prop := (keysOf d).Nodup

/-- The split of Python str.split with a one-character separator: the
maximal runs between separator occurrences, keeping empty runs, never
an empty list of parts. -/
def splitOnChar (sep : Char) : List Char → List (List Char)
  | [] => [[]]
  | c :: rest =>
      match splitOnChar sep rest with
      | [] => [[]]
      | cur :: parts =>
          if c = sep then [] :: cur :: parts else (c :: cur) :: parts

/-- The file component of a path: image_file split on slash, last item. -/
def basename (path : String) : String :=
  String.mk ((splitOnChar '/' path.data).getLastD [])

/-- Python str.lower restricted to the ASCII range, which covers every
extension and every allowed type the program compares. -/
def lowerStr (s : String) : String := String.mk (s.data.map Char.toLower)

/-- Lines 115 to 119 of faceage.py: pop the emotion sub-dict from the
attribute row and merge its entries back with names carrying an
emotion- marker.  Returns none when the pop raises a KeyError because
the emotion key is absent, or when its value is not a mapping. -/
def flattenEmotion (row : Dict) : Option Dict :=
  match dpop row "emotion" with
  | none => none
  | some (JValue.obj emo, rest) =>
      some (dupdate rest (emo.map (fun kv => ("emotion-" ++ kv.1, kv.2))))
  | some _ => none

/-- Lines 109 to 124 of faceage.py: turn one face record into a flat row.
The subscript accesses of faceId and faceAttributes and the pop of
emotion are unguarded in the source; each failure is a none here. -/
def flatten (result : Dict) (image_file : String) : Option Dict :=
  match dget result "faceId" with
  | none => none
  | some face_id =>
      match dget result "faceAttributes" with
      | some (JValue.obj row) =>
          match flattenEmotion row with
          | none => none
          | some row2 =>
              some (dset (dset row2 "faceId" face_id) "file"
                (JValue.str (basename image_file)))
      | _ => none

/-- The allowed image file extensions of faceage.py line 15. -/
def ALLOWED_TYPES : List String := ["jpg", "jpeg", "png", "gif", "bmp"]

/-- One entry produced by scanning the image directory. -/
structure DirEntry where
  name : String
  path : String
  is_file : Bool

/-- The extension of a file name as get_image_list computes it: the
name is split on dots and the last component is taken, so a name with
no dot yields the whole name. -/
def extOf (name : String) : String :=
  String.mk ((splitOnChar '.' name.data).getLastD [])

/-- The extension test of get_image_list: the extension, lowercased, is
compared against the allowed list. -/
def extAllowed (name : String) : Bool :=
  ALLOWED_TYPES.contains (lowerStr (extOf name))

/-- The scan loop of get_image_list, accumulating paths in scan order. -/
def get_image_list_loop : List DirEntry → List String → List String
  | [], acc => acc
  | e :: rest, acc =>
      if e.is_file then
        if extAllowed e.name then get_image_list_loop rest (acc ++ [e.path])
        else get_image_list_loop rest acc
      else get_image_list_loop rest acc

/-- Lines 53 to 84 of faceage.py: list the image paths in a directory. -/
def get_image_list (entries : List DirEntry) : List String :=
  get_image_list_loop entries []

/-- Lines 18 to 50 of faceage.py, with the network abstracted: canOpen
says whether opening the file succeeds, httpOk whether the POST returns
a 2xx status, faces is the parsed JSON array of the response body.
Except.error models an uncaught requests exception; Except.ok none is
the explicit None return after a caught FileNotFoundError or an empty
face array; otherwise the first face is returned. -/
def process_image (canOpen : Bool) (httpOk : Bool) (faces : List Dict) :
    Except Unit (Option Dict) :=
  if canOpen then
    if httpOk then
      match faces with
      | [] => Except.ok none
      | f :: _ => Except.ok (some f)
    else Except.error ()
  else Except.ok none

/-- The environment one image presents to the driver loop. -/
structure ImageEnv where
  path : String
  canOpen : Bool
  httpOk : Bool
  faces : List Dict

/-- Observable events of the driver loop: a row appended to the output
accumulator, and a sleep of the given number of seconds. -/
inductive Ev where
  | append (row : Dict)
  | sleep (secs : Nat)

/-- The body of one loop iteration of process_image_directory, lines 96
to 119: a caught request exception or a falsy result (None or an empty
record) skips the image, giving some none; a flattened row gives
some (some row); an uncaught KeyError inside the flattening aborts the
whole run, giving none. -/
def imageStep (e : ImageEnv) : Option (Option Dict) :=
  match process_image e.canOpen e.httpOk e.faces with
  | Except.error _ => some none
  | Except.ok none => some none
  | Except.ok (some result) =>
      if result.isEmpty then some none
      else
        match flatten result e.path with
        | none => none
        | some row => some (some row)

/-- The loop of process_image_directory, lines 95 to 127: per image the
body runs, an appended row is followed by one sleep, a skip appends and
sleeps nothing, and an uncaught error aborts the loop. -/
def procLoop (sleepSecs : Nat) :
    List ImageEnv → List Dict → List Ev → Option (List Dict × List Ev)
  | [], acc, evs => some (acc, evs)
  | e :: rest, acc, evs =>
      match imageStep e with
      | none => none
      | some none => procLoop sleepSecs rest acc evs
      | some (some row) =>
          procLoop sleepSecs rest (acc ++ [row])
            (evs ++ [Ev.append row, Ev.sleep sleepSecs])

/-- Lines 87 to 129 of faceage.py: process every enumerated image,
returning the accumulated rows and the event trace, or none when an
uncaught exception escapes the loop. -/
def process_image_directory (sleepSecs : Nat) (envs : List ImageEnv) :
    Option (List Dict × List Ev) :=
  procLoop sleepSecs envs [] []

/-- One row as csv.DictWriter emits it: for each field name, the value
in the record, where none renders as an empty field (the restval).
Returns none for the ValueError DictWriter raises when the record holds
a key that is not among the field names (extrasaction is the default
raise). -/
def dict_to_list (fns : List String) (row : Dict) :
    Option (List (Option JValue)) :=
  if row.any (fun kv => !(fns.contains kv.1)) then none
  else some (fns.map (fun k => dget row k))

/-- The writerow loop of the main block: rows emitted before a
ValueError stay written; the Bool records whether an error was raised. -/
def writeLoop (fns : List String) :
    List Dict → List (List (Option JValue)) × Bool
  | [] => ([], false)
  | r :: rest =>
      match dict_to_list fns r with
      | none => ([], true)
      | some cells =>
          match writeLoop fns rest with
          | (more, err) => (cells :: more, err)

/-- What the block at lines 232 to 238 of faceage.py leaves behind.
The open call with mode w runs first, so created is true even when a
later step raises; header records whether writeheader ran; rows are the
data rows written before any error; error records a raised exception. -/
structure WriteResult where
  created : Bool
  header : Option (List String)
  rows : List (List (Option JValue))
  error : Bool

/-- The output writing block: the file is opened (created) first, then
the field names are read off the first record, which raises an
IndexError on an empty result set, then the header and the rows are
written. -/
def write_output (results : List Dict) : WriteResult :=
  match results with
  | [] => ⟨true, none, [], true⟩
  | first :: _ =>
      let fns := keysOf first
      let res := writeLoop fns results
      ⟨true, some fns, res.1, res.2⟩

/-- The observable outcome of a whole run of the main block. -/
inductive MainOutcome where
  | earlyExit (code : Nat)
  | crashed
  | ran (rows : List Dict) (written : WriteResult)

/-- Lines 214 to 240 of faceage.py: the existing-output check runs
before the directory is processed; only when it passes does the batch
run and the output get written. -/
def main (outputFileIsFile : Bool) (sleepSecs : Nat)
    (envs : List ImageEnv) : MainOutcome :=
  if outputFileIsFile then MainOutcome.earlyExit 1
  else
    match process_image_directory sleepSecs envs with
    | none => MainOutcome.crashed
    | some (rows, _) => MainOutcome.ran rows (write_output rows)

/-- Looking up the key just set yields the value just written. -/
theorem dget_dset_self (d : Dict) (k : String) (v : JValue) :
    dget (dset d k v) k = some v := by
  induction d with
  | nil => simp [dset, dget]
  | cons hd tl ih =>
      obtain ⟨k0, v0⟩ := hd
      by_cases h : k0 = k
      · simp [dset, h, dget]
      · simp [dset, h, dget, ih]

/-- Setting one key leaves lookups of any other key unchanged. -/
theorem dget_dset_ne (d : Dict) (k j : String) (v : JValue) (h : j ≠ k) :
    dget (dset d k v) j = dget d j := by
  induction d with
  | nil => simp [dset, dget, Ne.symm h]
  | cons hd tl ih =>
      obtain ⟨k0, v0⟩ := hd
      by_cases h0 : k0 = k
      · subst h0
        simp [dset, dget, h, Ne.symm h]
      · by_cases h1 : k0 = j <;> simp [dset, dget, h, h0, h1, ih]

/-- A key that is absent from a dict looks up to none. -/
theorem dget_eq_none_of_not_mem (d : Dict) (k : String) (h : k ∉ keysOf d) :
    dget d k = none := by
  induction d with
  | nil => simp [dget]
  | cons hd tl ih =>
      obtain ⟨k0, v0⟩ := hd
      simp only [keysOf, List.map_cons, List.mem_cons, not_or] at h
      have ihh : k ∉ keysOf tl := by simpa [keysOf] using h.2
      simp [dget, Ne.symm h.1, ih ihh]

/-- A successful lookup determines the result of pop: the looked-up
value is returned and the first entry with that key is removed. -/
theorem dpop_of_dget (d : Dict) (k : String) (v : JValue)
    (h : dget d k = some v) : dpop d k = some (v, eraseKey d k) := by
  induction d with
  | nil => simp [dget] at h
  | cons hd tl ih =>
      obtain ⟨k0, v0⟩ := hd
      by_cases h0 : k0 = k
      · simp [dget, h0] at h
        simp [dpop, eraseKey, h0, h]
      · simp [dget, h0] at h
        simp [dpop, eraseKey, h0, ih h]

/-- A failed lookup makes pop fail: this is the KeyError. -/
theorem dpop_eq_none (d : Dict) (k : String) (h : dget d k = none) :
    dpop d k = none := by
  induction d with
  | nil => rfl
  | cons hd tl ih =>
      obtain ⟨k0, v0⟩ := hd
      by_cases h0 : k0 = k
      · simp [dget, h0] at h
      · simp [dget, h0] at h
        simp [dpop, h0, ih h]

/-- Removing one key leaves lookups of other keys unchanged. -/
theorem dget_eraseKey_ne (d : Dict) (k j : String) (h : j ≠ k) :
    dget (eraseKey d k) j = dget d j := by
  induction d with
  | nil => simp [eraseKey]
  | cons hd tl ih =>
      obtain ⟨k0, v0⟩ := hd
      by_cases h0 : k0 = k
      · subst h0
        simp [eraseKey, dget, Ne.symm h]
      · by_cases h1 : k0 = j <;> simp [eraseKey, dget, h, h0, h1, ih]

/-- With distinct keys, the removed key is gone after the removal. -/
theorem dget_eraseKey_self (d : Dict) (k : String) (h : nodupKeys d) :
    dget (eraseKey d k) k = none := by
  induction d with
  | nil => simp [eraseKey, dget]
  | cons hd tl ih =>
      obtain ⟨k0, v0⟩ := hd
      simp only [nodupKeys, keysOf, List.map_cons, List.nodup_cons] at h
      by_cases h0 : k0 = k
      · subst h0
        have : k0 ∉ keysOf tl := by simpa [keysOf] using h.1
        simp [eraseKey, dget_eq_none_of_not_mem tl k0 this]
      · have ihh : nodupKeys tl := by simpa [nodupKeys, keysOf] using h.2
        simp [eraseKey, dget, h0, ih ihh]

/-- Updating with entries that avoid a key leaves its lookup unchanged. -/
theorem dget_dupdate_not_mem (d e : Dict) (k : String)
    (h : k ∉ keysOf e) : dget (dupdate d e) k = dget d k := by
  induction e generalizing d with
  | nil => simp [dupdate]
  | cons hd tl ih =>
      obtain ⟨k0, v0⟩ := hd
      simp only [keysOf, List.map_cons, List.mem_cons, not_or] at h
      have hstep : dupdate d ((k0, v0) :: tl) = dupdate (dset d k0 v0) tl := rfl
      have htl : k ∉ keysOf tl := by simpa [keysOf] using h.2
      rw [hstep, ih (dset d k0 v0) htl, dget_dset_ne d k0 k v0 h.1]

/-- With distinct update keys, every updated entry is found afterwards. -/
theorem dget_dupdate_mem (d e : Dict) (k : String) (v : JValue)
    (hnd : nodupKeys e) (h : (k, v) ∈ e) : dget (dupdate d e) k = some v := by
  induction e generalizing d with
  | nil => simp at h
  | cons hd tl ih =>
      obtain ⟨k0, v0⟩ := hd
      have hstep : dupdate d ((k0, v0) :: tl) = dupdate (dset d k0 v0) tl := rfl
      simp only [nodupKeys, keysOf, List.map_cons, List.nodup_cons] at hnd
      rcases List.mem_cons.mp h with heq | hmem
      · obtain ⟨hk, hv⟩ := Prod.mk.injEq .. ▸ heq
        subst hk; subst hv
        have hnot : k ∉ keysOf tl := by simpa [keysOf] using hnd.1
        rw [hstep, dget_dupdate_not_mem (dset d k v) tl k hnot,
          dget_dset_self d k v]
      · have hntl : nodupKeys tl := by simpa [nodupKeys, keysOf] using hnd.2
        rw [hstep, ih (dset d k0 v0) hntl hmem]

/-- A key carrying the emotion marker is longer than eight characters,
so it differs from every shorter string. -/
theorem emotion_key_ne (k s : String) (hs : s.length < 8) :
    "emotion-" ++ k ≠ s := by
  intro h
  have hl := congrArg String.length h
  rw [String.length_append] at hl
  have h8 : ("emotion-" : String).length = 8 := rfl
  rw [h8] at hl
  omega

/-- Attaching the emotion marker to distinct names keeps them distinct. -/
theorem emotion_key_inj {a b : String}
    (h : "emotion-" ++ a = "emotion-" ++ b) : a = b := by
  have hd := congrArg String.data h
  rw [String.data_append, String.data_append] at hd
  exact String.ext (List.append_cancel_left hd)

/-- Fully determined lookups determine the flattened row. -/
theorem flatten_eq_of_lookups (result row0 : Dict) (fid : JValue)
    (file : String)
    (hid : dget result "faceId" = some fid)
    (hattr : dget result "faceAttributes" = some (JValue.obj row0))
    (emo : Dict)
    (hemo : dget row0 "emotion" = some (JValue.obj emo)) :
    flatten result file =
      some (dset (dset (dupdate (eraseKey row0 "emotion")
          (emo.map (fun kv => ("emotion-" ++ kv.1, kv.2)))) "faceId" fid)
        "file" (JValue.str (basename file))) := by
  unfold flatten flattenEmotion
  simp only [hid, hattr, dpop_of_dget row0 "emotion" (JValue.obj emo) hemo]

/-- Keys of the emotion dict after renaming stay pairwise distinct. -/
theorem mapped_emotions_nodup (emo : Dict) (hnde : nodupKeys emo) :
    nodupKeys (emo.map (fun kv => ("emotion-" ++ kv.1, kv.2))) := by
  simp only [nodupKeys, keysOf, List.map_map]
  have hc : (Prod.fst ∘ fun kv : String × JValue => ("emotion-" ++ kv.1, kv.2)) =
      (fun s => "emotion-" ++ s) ∘ Prod.fst := rfl
  rw [hc, ← List.map_map]
  have hn : (emo.map Prod.fst).Nodup := by simpa [keysOf] using hnde
  exact hn.map (fun a b hab => emotion_key_inj hab)

/-- A short key never occurs among the renamed emotion keys. -/
theorem not_mem_mapped_of_short (emo : Dict) (s : String)
    (hs : s.length < 8) :
    s ∉ keysOf (emo.map (fun kv => ("emotion-" ++ kv.1, kv.2))) := by
  intro hmem
  simp only [keysOf, List.map_map, List.mem_map, Function.comp] at hmem
  obtain ⟨kv, _, heq⟩ := hmem
  exact emotion_key_ne kv.1 s hs heq

/-- Claim C1: for a face record whose attribute mapping carries a nested
emotion mapping, the flattening step yields a row with no emotion key,
one emotion-name key per emotion entry carrying the same score, every
non-emotion attribute unchanged (provided its name does not collide
with the added keys), plus faceId and file, where file is the part of
the source path after the last slash. -/
theorem C1_flatten_row_shape
    (result row0 emo : Dict) (fid : JValue) (file : String)
    (hid : dget result "faceId" = some fid)
    (hattr : dget result "faceAttributes" = some (JValue.obj row0))
    (hemo : dget row0 "emotion" = some (JValue.obj emo))
    (hnd : nodupKeys row0) (hnde : nodupKeys emo) :
    ∃ row, flatten result file = some row ∧
      dget row "emotion" = none ∧
      (∀ k v, (k, v) ∈ emo → dget row ("emotion-" ++ k) = some v) ∧
      (∀ k v, dget row0 k = some v → k ≠ "emotion" →
        (∀ e ∈ emo, "emotion-" ++ e.1 ≠ k) → k ≠ "faceId" → k ≠ "file" →
        dget row k = some v) ∧
      dget row "faceId" = some fid ∧
      dget row "file" = some (JValue.str (basename file)) := by
  refine ⟨_, flatten_eq_of_lookups result row0 fid file hid hattr emo hemo,
    ?_, ?_, ?_, ?_, ?_⟩
  · rw [dget_dset_ne _ _ _ _ (by decide), dget_dset_ne _ _ _ _ (by decide),
      dget_dupdate_not_mem _ _ _ (not_mem_mapped_of_short emo "emotion"
        (by decide)),
      dget_eraseKey_self row0 "emotion" hnd]
  · intro k v hkv
    rw [dget_dset_ne _ _ _ _ (emotion_key_ne k "file" (by decide)),
      dget_dset_ne _ _ _ _ (emotion_key_ne k "faceId" (by decide))]
    exact dget_dupdate_mem _ _ _ _ (mapped_emotions_nodup emo hnde)
      (List.mem_map.mpr ⟨(k, v), hkv, rfl⟩)
  · intro k v hget hkne hkemo hkfid hkfile
    have hnm : k ∉ keysOf (emo.map (fun kv => ("emotion-" ++ kv.1, kv.2))) := by
      intro hmem
      simp only [keysOf, List.map_map, List.mem_map, Function.comp] at hmem
      obtain ⟨kv, hkv, heq⟩ := hmem
      exact hkemo kv hkv heq
    rw [dget_dset_ne _ _ _ _ hkfile, dget_dset_ne _ _ _ _ hkfid,
      dget_dupdate_not_mem _ _ _ hnm,
      dget_eraseKey_ne row0 "emotion" k hkne]
    exact hget
  · rw [dget_dset_ne _ _ _ _ (by decide), dget_dset_self]
  · rw [dget_dset_self]

/-- A face record as the detection API returns it, used as a witness. -/
def sampleEmotions : Dict :=
  [("happiness", JValue.num 9), ("anger", JValue.num 1)]

/-- The attribute mapping of the sample record. -/
def sampleAttrs : Dict :=
  [("age", JValue.num 30), ("gender", JValue.str "male"),
   ("emotion", JValue.obj sampleEmotions)]

/-- The sample face record. -/
def sampleRecord : Dict :=
  [("faceId", JValue.str "abc123"), ("faceAttributes", JValue.obj sampleAttrs)]

/-- The flat row the sample record flattens to. -/
def sampleFlatRow : Dict :=
  [("age", JValue.num 30), ("gender", JValue.str "male"),
   ("emotion-happiness", JValue.num 9), ("emotion-anger", JValue.num 1),
   ("faceId", JValue.str "abc123"), ("file", JValue.str "face1.jpg")]

/-- Witness for C1 at the sample record. -/
theorem C1_witness :
    ∃ row, flatten sampleRecord "images/face1.jpg" = some row ∧
      dget row "emotion" = none ∧
      (∀ k v, (k, v) ∈ sampleEmotions → dget row ("emotion-" ++ k) = some v) ∧
      (∀ k v, dget sampleAttrs k = some v → k ≠ "emotion" →
        (∀ e ∈ sampleEmotions, "emotion-" ++ e.1 ≠ k) → k ≠ "faceId" →
        k ≠ "file" → dget row k = some v) ∧
      dget row "faceId" = some (JValue.str "abc123") ∧
      dget row "file" = some (JValue.str (basename "images/face1.jpg")) :=
  C1_flatten_row_shape sampleRecord sampleAttrs sampleEmotions
    (JValue.str "abc123") "images/face1.jpg" rfl rfl rfl
    (by decide) (by decide)

/-- Claim C9: under the precondition that the record has a faceId and a
faceAttributes mapping with an emotion sub-mapping, the flattening step
completes without error; the precondition is an unguarded assumption,
since without it the lookups and the pop fail in the source. -/
theorem C9_flatten_total_under_assumptions
    (result row0 emo : Dict) (fid : JValue) (file : String)
    (hid : dget result "faceId" = some fid)
    (hattr : dget result "faceAttributes" = some (JValue.obj row0))
    (hemo : dget row0 "emotion" = some (JValue.obj emo)) :
    (flatten result file).isSome := by
  rw [flatten_eq_of_lookups result row0 fid file hid hattr emo hemo]
  rfl

/-- Witness for C9 at the sample record. -/
theorem C9_witness : (flatten sampleRecord "photos/p.png").isSome :=
  C9_flatten_total_under_assumptions sampleRecord sampleAttrs sampleEmotions
    (JValue.str "abc123") "photos/p.png" rfl rfl rfl

/-- Counterexample to claim C5 as stated: on a flat row with no emotion
key the second application of the flattening transform is not a no-op
returning the input; the pop of the emotion key fails (a KeyError in
the source), modelled by the none result. -/
theorem C5_counterexample :
    dget sampleFlatRow "emotion" = none ∧
    flattenEmotion sampleFlatRow = none ∧
    flattenEmotion sampleFlatRow ≠ some sampleFlatRow := by
  have h0 : flattenEmotion sampleFlatRow = none := rfl
  refine ⟨rfl, h0, fun h => ?_⟩
  rw [h0] at h
  exact Option.noConfusion h

/-- Claim C5 amended: applying the flattening transform a second time to
a row without an emotion key always fails with a KeyError (the pop has
no default), rather than acting as the identity. -/
theorem C5_second_application_fails (row : Dict)
    (h : dget row "emotion" = none) : flattenEmotion row = none := by
  unfold flattenEmotion
  rw [dpop_eq_none row "emotion" h]

/-- Witness for the amended C5 at a concrete emotion-free row. -/
theorem C5_witness :
    dget [("age", JValue.num 30)] "emotion" = none ∧
    flattenEmotion [("age", JValue.num 30)] = none :=
  ⟨rfl, C5_second_application_fails [("age", JValue.num 30)] rfl⟩

/-- Claim C6: on a successful call the parsed face array determines the
result: an empty array gives no result, and otherwise exactly the first
face is returned while any further detected faces are discarded. -/
theorem C6_first_face_only :
    process_image true true ([] : List Dict) = Except.ok none ∧
    ∀ (f : Dict) (rest : List Dict),
      process_image true true (f :: rest) = Except.ok (some f) :=
  ⟨rfl, fun _ _ => rfl⟩

/-- Each of the three recoverable per-image failures makes the loop body
a skip: an unopenable file, a failed request, an empty face array. -/
theorem imageStep_skip (e : ImageEnv)
    (h : e.canOpen = false ∨ e.httpOk = false ∨ e.faces = []) :
    imageStep e = some none := by
  unfold imageStep process_image
  rcases h with h | h | h
  · rw [h]
    simp
  · rw [h]
    cases e.canOpen <;> simp
  · rw [h]
    cases e.canOpen <;> cases e.httpOk <;> simp

/-- The one-step unfolding of the loop on a nonempty image list. -/
theorem procLoop_cons (s : Nat) (e : ImageEnv) (rest : List ImageEnv)
    (acc : List Dict) (evs : List Ev) :
    procLoop s (e :: rest) acc evs =
      match imageStep e with
      | none => none
      | some none => procLoop s rest acc evs
      | some (some row) =>
          procLoop s rest (acc ++ [row])
            (evs ++ [Ev.append row, Ev.sleep s]) := rfl

/-- Claim C3: a recoverable per-image failure (unopenable file, failed
request, or empty face array) is absorbed inside the loop: the whole
batch behaves exactly as if that image were not in the list, so the
failure never propagates and the remaining images decide the result. -/
theorem C3_recoverable_failure_skipped (s : Nat) (pre post : List ImageEnv)
    (e : ImageEnv)
    (h : e.canOpen = false ∨ e.httpOk = false ∨ e.faces = []) :
    process_image_directory s (pre ++ e :: post) =
      process_image_directory s (pre ++ post) := by
  unfold process_image_directory
  have hgen : ∀ acc evs,
      procLoop s (pre ++ e :: post) acc evs =
        procLoop s (pre ++ post) acc evs := by
    induction pre with
    | nil =>
        intro acc evs
        show procLoop s (e :: post) acc evs = procLoop s post acc evs
        rw [procLoop_cons, imageStep_skip e h]
    | cons p pr ih =>
        intro acc evs
        show procLoop s (p :: (pr ++ e :: post)) acc evs =
          procLoop s (p :: (pr ++ post)) acc evs
        rw [procLoop_cons, procLoop_cons]
        cases hp : imageStep p with
        | none => rfl
        | some o =>
            cases o with
            | none => exact ih acc evs
            | some row =>
                exact ih (acc ++ [row]) (evs ++ [Ev.append row, Ev.sleep s])
  exact hgen [] []

/-- A processable image environment used by several witnesses. -/
def envGood : ImageEnv := ⟨"images/face1.jpg", true, true, [sampleRecord]⟩

/-- An image environment whose file cannot be opened. -/
def envBad : ImageEnv := ⟨"images/broken.jpg", false, true, []⟩

/-- Witness for C3: dropping a failing image from the middle of a batch
does not change the outcome. -/
theorem C3_witness :
    process_image_directory 5 ([envGood] ++ envBad :: [envGood]) =
      process_image_directory 5 ([envGood] ++ [envGood]) :=
  C3_recoverable_failure_skipped 5 [envGood] [envGood] envBad (Or.inl rfl)

/-- The event trace a list of appended rows must produce: for every row,
one append immediately followed by one sleep. -/
def sleepBlocks (s : Nat) (rows : List Dict) : List Ev :=
  (rows.map (fun r => [Ev.append r, Ev.sleep s])).flatten

/-- The loop only extends the accumulator and the trace, and extends the
trace by exactly one append and one sleep per new row. -/
theorem procLoop_trace (s : Nat) (envs : List ImageEnv) :
    ∀ acc evs rows out, procLoop s envs acc evs = some (rows, out) →
      ∃ nw, rows = acc ++ nw ∧ out = evs ++ sleepBlocks s nw := by
  induction envs with
  | nil =>
      intro acc evs rows out h
      unfold procLoop at h
      injection h with h1
      injection h1 with ha hb
      subst ha
      subst hb
      exact ⟨[], by simp, by simp [sleepBlocks]⟩
  | cons e rest ih =>
      intro acc evs rows out
      rw [procLoop_cons]
      cases hp : imageStep e with
      | none => intro h; exact Option.noConfusion h
      | some o =>
          cases o with
          | none =>
              intro h
              exact ih acc evs rows out h
          | some row =>
              intro h
              obtain ⟨nw, hr, ho⟩ := ih (acc ++ [row])
                (evs ++ [Ev.append row, Ev.sleep s]) rows out h
              refine ⟨row :: nw, ?_, ?_⟩
              · rw [hr]
                simp
              · rw [ho]
                simp [sleepBlocks]

/-- Claim C8: whenever the batch loop finishes, its event trace consists
of exactly one sleep of the configured duration right after each
appended row, the last row included, and nothing else: skipped images
produce neither an append nor a sleep, and no image is retried. -/
theorem C8_one_sleep_per_appended_row (s : Nat) (envs : List ImageEnv)
    (rows : List Dict) (evs : List Ev)
    (h : process_image_directory s envs = some (rows, evs)) :
    evs = sleepBlocks s rows := by
  obtain ⟨nw, hr, ho⟩ := procLoop_trace s envs [] [] rows evs h
  simp only [List.nil_append] at hr ho
  rw [ho, hr]

/-- Witness for C8 on a one-image batch: the trace is one append and one
sleep, the sleep coming after the final image. -/
theorem C8_witness :
    [Ev.append sampleFlatRow, Ev.sleep 5] = sleepBlocks 5 [sampleFlatRow] :=
  C8_one_sleep_per_appended_row 5 [envGood] [sampleFlatRow]
    [Ev.append sampleFlatRow, Ev.sleep 5] rfl

/-- Closed form of the enumerator loop: it appends, in scan order, the
paths of the file entries passing the extension test. -/
theorem get_image_list_loop_eq (entries : List DirEntry) :
    ∀ acc, get_image_list_loop entries acc =
      acc ++ (entries.filter (fun e => e.is_file && extAllowed e.name)).map
        (fun e => e.path) := by
  induction entries with
  | nil => intro acc; simp [get_image_list_loop]
  | cons e rest ih =>
      intro acc
      cases hf : e.is_file with
      | false => simp [get_image_list_loop, hf, ih]
      | true =>
          cases ha : extAllowed e.name with
          | false => simp [get_image_list_loop, hf, ha, ih]
          | true => simp [get_image_list_loop, hf, ha, ih]

/-- Claim C4 amended: the enumerator returns exactly the paths of the
regular file entries whose extension, lowercased, is allowed, in scan
order, where the extension is the last dot-separated component of the
name; hence a name with no dot at all is treated as its own extension
and can be eligible. -/
theorem C4_enumerator_filter (entries : List DirEntry) :
    get_image_list entries =
      (entries.filter (fun e => e.is_file && extAllowed e.name)).map
        (fun e => e.path) := by
  have h := get_image_list_loop_eq entries []
  simpa [get_image_list] using h

/-- Counterexample to claim C4 as stated: a file whose name has no dot,
hence no extension, is still returned when the whole name is in the
allowed list. -/
theorem C4_counterexample :
    (splitOnChar '.' ("jpg" : String).data).length = 1 ∧
    get_image_list [⟨"jpg", "images/jpg", true⟩] = ["images/jpg"] :=
  ⟨rfl, rfl⟩

/-- Success of the row writer on every record whose keys all occur among
the field names: every row is emitted, a missing key giving the empty
field, and no error is raised. -/
theorem writeLoop_ok (fns : List String) (rs : List Dict)
    (h : ∀ r ∈ rs, ∀ kv ∈ r, kv.1 ∈ fns) :
    writeLoop fns rs =
      (rs.map (fun r => fns.map (fun k => dget r k)), false) := by
  induction rs with
  | nil => rfl
  | cons r rest ih =>
      have h1 : dict_to_list fns r = some (fns.map (fun k => dget r k)) := by
        unfold dict_to_list
        have hall : r.any (fun kv => !(fns.contains kv.1)) = false := by
          rw [List.any_eq_false]
          intro kv hkv
          simpa using h r (List.mem_cons_self r rest) kv hkv
        rw [hall]
        rfl
      have h2 := ih (fun r2 hr2 kv hkv => h r2 (List.mem_cons_of_mem r hr2) kv hkv)
      simp [writeLoop, h1, h2]

/-- One-step unfolding of the output writer on a nonempty result set. -/
theorem write_output_cons (first : Dict) (rest : List Dict) :
    write_output (first :: rest) =
      ⟨true, some (keysOf first),
        (writeLoop (keysOf first) (first :: rest)).1,
        (writeLoop (keysOf first) (first :: rest)).2⟩ := rfl

/-- Claim C2 amended: on a nonempty result set the writer takes the
header from the key set of the first record in iteration order and
emits one data row per record, where a header key missing from a record
yields an empty field; but a record key absent from the header makes
the writer raise an error instead of dropping the value, so the
amended reading requires every key of every record to occur in the
header for all rows to be written. -/
theorem C2_writer_rows (first : Dict) (rest : List Dict)
    (h : ∀ r ∈ first :: rest, ∀ kv ∈ r, kv.1 ∈ keysOf first) :
    write_output (first :: rest) =
      ⟨true, some (keysOf first),
        (first :: rest).map (fun r => (keysOf first).map (fun k => dget r k)),
        false⟩ := by
  rw [write_output_cons, writeLoop_ok (keysOf first) (first :: rest) h]

/-- Witness for the amended C2: two records, the second missing one
header key, produce a header from the first record and two rows with
an empty field for the missing key, with no error. -/
theorem C2_witness :
    write_output [[("a", JValue.num 1), ("b", JValue.num 2)],
        [("a", JValue.num 3)]] =
      ⟨true, some ["a", "b"],
        [[some (JValue.num 1), some (JValue.num 2)],
         [some (JValue.num 3), none]], false⟩ :=
  C2_writer_rows [("a", JValue.num 1), ("b", JValue.num 2)]
    [[("a", JValue.num 3)]] (by decide)

/-- Counterexample to claim C2 as stated: a record carrying a key that
is not in the header is not written with the extra value dropped; the
writer raises an error and the row is lost. -/
theorem C2_counterexample :
    (write_output [[("a", JValue.num 1)],
        [("a", JValue.num 1), ("b", JValue.num 2)]]).error = true ∧
    (write_output [[("a", JValue.num 1)],
        [("a", JValue.num 1), ("b", JValue.num 2)]]).rows =
      [[some (JValue.num 1)]] :=
  ⟨rfl, rfl⟩

/-- Claim C7: when the batch returns an empty result set, the write step
fails on deriving the header from a first record, but only after the
destination file has been opened for writing, so an empty file is left
behind: created but with no header and no rows. -/
theorem C7_empty_results_leave_empty_file (s : Nat) (envs : List ImageEnv)
    (evs : List Ev)
    (h : process_image_directory s envs = some ([], evs)) :
    main false s envs = MainOutcome.ran [] ⟨true, none, [], true⟩ := by
  simp only [main, h]
  rfl

/-- Witness for C7 on an empty image directory. -/
theorem C7_witness :
    main false 5 [] = MainOutcome.ran [] ⟨true, none, [], true⟩ :=
  C7_empty_results_leave_empty_file 5 [] [] rfl

/-- Claim C10: when the output path already exists as a file, the run
exits with code 1 whatever the image directory holds, so the exit
happens before any scanning or API call can influence the outcome. -/
theorem C10_existing_output_exits_before_processing (s : Nat)
    (envs : List ImageEnv) :
    main true s envs = MainOutcome.earlyExit 1 := rfl

end FaceAge
